import Mathlib

/-!
Shallow embedding of the event-grouping, conflict-detection and
date-search logic of the calendar application
(source: src/src/App.jsx, functions groupEventsByDate, detectConflicts
and the parsing part of handleSearch), together with theorems settling
the specification's claims about them.
-/

namespace CalendarApp

/-- An event record as loaded from the static JSON source (data
model of spec section 3 / section 6). -/
structure Event where
  id : Nat
  date : String
  startTime : String
  endTime : String
  durationMinutes : Int
  title : String
  color : String
deriving DecidableEq

/-- An event together with the derived conflict flag that
detectConflicts adds via a spread copy of the record (line 48). -/
structure AnnotatedEvent extends Event where
  conflict : Bool
deriving DecidableEq

/-! ## Date-search parser (handleSearch, lines 78-144)

The parsing part of handleSearch is embedded as a pure function from
the raw search string to a tagged result; each thrown message is
mapped to the corresponding tag of the spec's error taxonomy
(section 7): "Invalid date format" to invalidFormat, "Invalid month"
/ "Invalid day" / "Invalid year" to invalidMonth / invalidDay /
invalidYear, and "Invalid date for the given month" to
invalidDayForMonth. -/

/-- Split a character list at every occurrence of the separator
character (the splits in the source use the single-character
separators "/", "-" and ":"). Structural recursion keeps the
definition kernel-reducible on literals. -/
def splitChar (sep : Char) : List Char → List (List Char)
  | [] => [[]]
  | c :: cs =>
      match splitChar sep cs with
      | r :: rs => if c = sep then [] :: r :: rs else (c :: r) :: rs
      | [] => if c = sep then [[], []] else [[c]]

/-- JS s.split(sep) for a one-character separator. -/
def jsSplit (s : String) (sep : Char) : List String :=
  (splitChar sep s.data).map String.mk

/-- JS s.includes(sep) for a one-character needle. -/
def jsIncludes (s : String) (c : Char) : Bool :=
  s.data.contains c

/-- The run of decimal digits JS parseInt consumes before ignoring
any trailing garbage. -/
def leadingDigits (cs : List Char) : List Char :=
  cs.takeWhile Char.isDigit

/-- Numeric value of a list of decimal digit characters. -/
def digitsVal (ds : List Char) : Nat :=
  ds.foldl (fun a c => a * 10 + (c.toNat - 48)) 0

/-- JS parseInt(s, 10): skip leading whitespace, read an optional
sign and then leading decimal digits, ignoring everything after them.
none models NaN (no digits found at all). -/
def parseInt (s : String) : Option Int :=
  let cs := s.data.dropWhile Char.isWhitespace
  match cs with
  | '-' :: rest =>
      if (leadingDigits rest).isEmpty then none
      else some (-(digitsVal (leadingDigits rest) : Int))
  | '+' :: rest =>
      if (leadingDigits rest).isEmpty then none
      else some ((digitsVal (leadingDigits rest) : Int))
  | _ =>
      if (leadingDigits cs).isEmpty then none
      else some ((digitsVal (leadingDigits cs) : Int))

/-- JS comparison a < b where a may be NaN (modelled by none): any
comparison with NaN is false. -/
def ltNaN (a : Option Int) (b : Int) : Bool :=
  match a with
  | none => false
  | some v => decide (v < b)

/-- JS comparison a > b where a may be NaN: false when a is NaN. -/
def gtNaN (a : Option Int) (b : Int) : Bool :=
  match a with
  | none => false
  | some v => decide (b < v)

/-- Gregorian leap-year rule, as used by the JS Date object. -/
def isLeapYear (y : Int) : Bool :=
  (y % 4 == 0 && y % 100 != 0) || y % 400 == 0

/-- Number of days of month m (1-based) of year y. -/
def daysInMonth (y m : Int) : Int :=
  if m == 2 then (if isLeapYear y then 29 else 28)
  else if m == 4 || m == 6 || m == 9 || m == 11 then 30
  else 31

/-- Month index returned by date.getMonth() for the JS construction
new Date(y, m0, d), on the argument ranges the validated parser
supplies (1900 <= y <= 9999, 0 <= m0 <= 11, 1 <= d <= 31): a day
beyond the month's length rolls over into the following month, by at
most three days, so the normalized month is m0 exactly when d fits in
month m0. -/
def jsDateMonth (y m0 d : Int) : Int :=
  if d ≤ daysInMonth y (m0 + 1) then m0 else m0 + 1

/-- Outcome of the date-search parser: a structured calendar date
(the year/month/day triple the constructed Date represents), or a
failure reason from the spec's error taxonomy. -/
inductive ParseResult where
  | ok (year month day : Int)
  | invalidFormat
  | invalidMonth
  | invalidDay
  | invalidYear
  | invalidDayForMonth
deriving DecidableEq

/-- Shared validation body of the two format branches of handleSearch
(lines 87-101 and lines 106-120): range checks in month, day, year
order, then construct the date and compare the re-derived month
against monthNum - 1. A none component is JS NaN: it passes every
range comparison (NaN compares false), makes the constructed Date
invalid, and date.getMonth() is then NaN, which never equals
monthNum - 1, so the month-mismatch error is thrown. The final
isNaN(date.getTime()) guard of line 125 is unreachable: any NaN
component has already failed at the month comparison, and a date built
from in-range numeric components is always valid. -/
def validateAndBuild (monthNum dayNum yearNum : Option Int) : ParseResult :=
  if ltNaN monthNum 1 || gtNaN monthNum 12 then .invalidMonth
  else if ltNaN dayNum 1 || gtNaN dayNum 31 then .invalidDay
  else if ltNaN yearNum 1900 || gtNaN yearNum 9999 then .invalidYear
  else
    match yearNum, monthNum, dayNum with
    | some y, some m, some d =>
        if jsDateMonth y (m - 1) d ≠ m - 1 then .invalidDayForMonth
        else .ok y m d
    | _, _, _ => .invalidDayForMonth

/-- The date parsing of handleSearch (lines 82-123): a string
containing a slash is split on slashes and read as month/day/year; an
otherwise hyphen-containing string is split on hyphens and read as
year-month-day; anything else is an invalid format. JS array
destructuring yields undefined for a missing component, and
parseInt(undefined, 10) coerces it to the string "undefined", which
parses to NaN; the getD default models that. Components past the
third are dropped by the destructuring. -/
def parseSearchInput (searchDate : String) : ParseResult :=
  if jsIncludes searchDate '/' then
    let parts := jsSplit searchDate '/'
    validateAndBuild (parseInt (parts.getD 0 "undefined"))
      (parseInt (parts.getD 1 "undefined")) (parseInt (parts.getD 2 "undefined"))
  else if jsIncludes searchDate '-' then
    let parts := jsSplit searchDate '-'
    validateAndBuild (parseInt (parts.getD 1 "undefined"))
      (parseInt (parts.getD 2 "undefined")) (parseInt (parts.getD 0 "undefined"))
  else .invalidFormat

/-- The input string is of a recognized shape, with ms, ds, ys its
month, day and year component strings: slash-containing inputs take
the first branch of parseSearchInput, hyphen-only inputs the second. -/
def recognizedAs (s ms ds ys : String) : Prop :=
  (jsIncludes s '/' = true ∧ jsSplit s '/' = [ms, ds, ys]) ∨
  (jsIncludes s '/' = false ∧ jsIncludes s '-' = true ∧ jsSplit s '-' = [ys, ms, ds])

/-! ## Event index (groupEventsByDate, lines 35-43) -/

/-- Loop body of groupEventsByDate for one event, with the JS object
modelled as an insertion-ordered association list (JS objects
enumerate non-integer-like string keys in insertion order): the key's
list is created on first encounter, appending the key, and the event
is pushed onto its key's list. The event's own date string is the key
(line 38). -/
def insertEvent (map : List (String × List Event)) (e : Event) :
    List (String × List Event) :=
  match map.find? (fun p => p.1 == e.date) with
  | some _ => map.map (fun p => if p.1 == e.date then (p.1, p.2 ++ [e]) else p)
  | none => map ++ [(e.date, [e])]

/-- groupEventsByDate (lines 35-43): fold the event list through the
loop body, starting from the empty object. -/
def buildIndex (events : List Event) : List (String × List Event) :=
  events.foldl insertEvent []

/-- The per-cell lookup eventsByDate[iso] or-else the empty list
(line 213 and line 133). -/
def lookup (index : List (String × List Event)) (dateKey : String) : List Event :=
  match index.find? (fun p => p.1 == dateKey) with
  | some p => p.2
  | none => []

/-! ## Conflict detector (detectConflicts, lines 46-68) -/

/-- JS Number on the all-digit strings that make up a well-formed
HH:MM time component. -/
def jsNumber (s : String) : Int :=
  (digitsVal s.data : Int)

/-- toMinutes (lines 50-53): minutes since midnight of an HH:MM
time. On fewer than two components JS would produce NaN; malformed
times are out of scope (spec section 7), the fallback keeps the
embedding total. -/
def toMinutes (t : String) : Int :=
  match (jsSplit t ':').map jsNumber with
  | h :: m :: _ => h * 60 + m
  | _ => 0

/-- The pairwise overlap of lines 55-60:
max(0, min(aEnd, bEnd) - max(aStart, bStart)) with
end = start + durationMinutes. -/
def overlap (a b : Event) : Int :=
  let aStart := toMinutes a.startTime
  let aEnd := aStart + a.durationMinutes
  let bStart := toMinutes b.startTime
  let bEnd := bStart + b.durationMinutes
  max 0 (min aEnd bEnd - max aStart bStart)

/-- Set the conflict flag of the record at index i: the mutation
results[i].conflict = true of lines 62-63. -/
def markConflict : List AnnotatedEvent → Nat → List AnnotatedEvent
  | [], _ => []
  | r :: rs, 0 => { r with conflict := true } :: rs
  | r :: rs, n + 1 => r :: markConflict rs n

/-- One inner-loop iteration (lines 58-64): read the two records'
times (the flag mutations never touch the time fields, so reading
them per pair agrees with the source's caching of aStart/aEnd in the
outer loop), and when the ranges overlap positively mark first i,
then j. -/
def markOverlap (rs : List AnnotatedEvent) (i j : Nat) : List AnnotatedEvent :=
  match rs[i]?, rs[j]? with
  | some a, some b =>
      if 0 < overlap a.toEvent b.toEvent then markConflict (markConflict rs i) j
      else rs
  | _, _ => rs

/-- The index pairs visited by the nested loops of lines 54-66, in
iteration order: i over 0..n-1, j over i+1..n-1. -/
def pairList (n : Nat) : List (Nat × Nat) :=
  (List.range n).flatMap (fun i => (List.range' (i + 1) (n - (i + 1))).map (fun j => (i, j)))

/-- detectConflicts (lines 46-68): copy every event with a false
conflict flag, then run the nested loops, marking both members of
every positively overlapping pair. -/
def detectConflicts (eventsForDay : List Event) : List AnnotatedEvent :=
  let results := eventsForDay.map (fun e => { toEvent := e, conflict := false })
  (pairList results.length).foldl (fun rs p => markOverlap rs p.1 p.2) results

/-! ## Parser lemmas -/

/-- A recognized-shape input parses by validating its three component
strings in month, day, year positions. -/
theorem parseSearchInput_recognized (s ms ds ys : String)
    (h : recognizedAs s ms ds ys) :
    parseSearchInput s =
      validateAndBuild (parseInt ms) (parseInt ds) (parseInt ys) := by
  rcases h with ⟨h1, h2⟩ | ⟨h0, h1, h2⟩
  · simp [parseSearchInput, h1, h2, List.getD]
  · simp [parseSearchInput, h0, h1, h2, List.getD]

/-- validateAndBuild never reports an invalid format: that reason is
produced only by the separator dispatch of parseSearchInput. -/
theorem validateAndBuild_ne_invalidFormat (mo d y : Option Int) :
    validateAndBuild mo d y ≠ ParseResult.invalidFormat := by
  rcases mo with _ | m <;> rcases d with _ | dv <;> rcases y with _ | yv <;>
    simp only [validateAndBuild, ltNaN, gtNaN] <;> split_ifs <;> simp

/-- A NaN component passes every range check and fails at the month
re-derivation, provided the numeric components that are present pass
their own range checks. -/
theorem validateAndBuild_nan (mo d y : Option Int)
    (hnan : mo = none ∨ d = none ∨ y = none)
    (hm : ∀ v, mo = some v → 1 ≤ v ∧ v ≤ 12)
    (hd : ∀ v, d = some v → 1 ≤ v ∧ v ≤ 31)
    (hy : ∀ v, y = some v → 1900 ≤ v ∧ v ≤ 9999) :
    validateAndBuild mo d y = ParseResult.invalidDayForMonth := by
  have cm : (ltNaN mo 1 || gtNaN mo 12) = false := by
    rcases mo with _ | m
    · simp [ltNaN, gtNaN]
    · have := hm m rfl
      simp only [ltNaN, gtNaN, Bool.or_eq_false_iff, decide_eq_false_iff_not]
      omega
  have cd : (ltNaN d 1 || gtNaN d 31) = false := by
    rcases d with _ | dv
    · simp [ltNaN, gtNaN]
    · have := hd dv rfl
      simp only [ltNaN, gtNaN, Bool.or_eq_false_iff, decide_eq_false_iff_not]
      omega
  have cy : (ltNaN y 1900 || gtNaN y 9999) = false := by
    rcases y with _ | yv
    · simp [ltNaN, gtNaN]
    · have := hy yv rfl
      simp only [ltNaN, gtNaN, Bool.or_eq_false_iff, decide_eq_false_iff_not]
      omega
  rcases hnan with h | h | h
  · subst h
    rcases d with _ | dv <;> rcases y with _ | yv <;>
      simp_all [validateAndBuild]
  · subst h
    rcases mo with _ | m <;> rcases y with _ | yv <;>
      simp_all [validateAndBuild]
  · subst h
    rcases mo with _ | m <;> rcases d with _ | dv <;>
      simp_all [validateAndBuild]

/-! ## Claim theorems about the date-search parser -/

/-- Claim C2, counterexample: the input "not-a-date" is of neither
documented shape, yet it does not fail with the invalid-format
reason: it contains a hyphen, enters the hyphen branch, its NaN
components pass every range check, and the month re-derivation
reports the day-for-month mismatch. -/
theorem parseSearchInput_notADate_not_invalidFormat :
    parseSearchInput "not-a-date" = ParseResult.invalidDayForMonth ∧
      parseSearchInput "not-a-date" ≠ ParseResult.invalidFormat := by
  constructor <;> decide

/-- Claim C2 (amended): parseSearchInput reports the invalid-format
reason exactly for inputs containing neither a slash nor a hyphen;
"not-a-date" contains hyphens and instead fails with the
day-for-month mismatch reason. -/
theorem parseSearchInput_invalidFormat_only_without_separators :
    (∀ s : String, jsIncludes s '/' = false → jsIncludes s '-' = false →
      parseSearchInput s = ParseResult.invalidFormat) ∧
    (∀ s : String, parseSearchInput s = ParseResult.invalidFormat →
      jsIncludes s '/' = false ∧ jsIncludes s '-' = false) ∧
    parseSearchInput "not-a-date" = ParseResult.invalidDayForMonth := by
  refine ⟨?_, ?_, by decide⟩
  · intro s h1 h2
    simp [parseSearchInput, h1, h2]
  · intro s h
    by_cases h1 : jsIncludes s '/' = true
    · exfalso
      rw [parseSearchInput, if_pos h1] at h
      exact validateAndBuild_ne_invalidFormat _ _ _ h
    · by_cases h2 : jsIncludes s '-' = true
      · exfalso
        rw [parseSearchInput, if_neg h1, if_pos h2] at h
        exact validateAndBuild_ne_invalidFormat _ _ _ h
      · exact ⟨by simpa using h1, by simpa using h2⟩

/-- Claim C3, counterexample: "ab/15/2025" is of the slash shape with
the non-numeric month token "ab", yet it does not fail with the
invalid-format reason. -/
theorem parseSearchInput_nonnumeric_not_invalidFormat :
    parseSearchInput "ab/15/2025" = ParseResult.invalidDayForMonth ∧
      parseSearchInput "ab/15/2025" ≠ ParseResult.invalidFormat := by
  constructor <;> decide

/-- Claim C3 (amended): on a recognized shape a non-numeric component
never yields the invalid-format reason; it parses to NaN, which
passes every range comparison, and when the remaining numeric
components are within range the failure reported is the day-for-month
mismatch from the month re-derivation step. -/
theorem parseSearchInput_nonnumeric_reports_dayForMonth :
    ∀ s ms ds ys : String, recognizedAs s ms ds ys →
      (parseInt ms = none ∨ parseInt ds = none ∨ parseInt ys = none) →
      parseSearchInput s ≠ ParseResult.invalidFormat ∧
      ((∀ v, parseInt ms = some v → 1 ≤ v ∧ v ≤ 12) →
       (∀ v, parseInt ds = some v → 1 ≤ v ∧ v ≤ 31) →
       (∀ v, parseInt ys = some v → 1900 ≤ v ∧ v ≤ 9999) →
       parseSearchInput s = ParseResult.invalidDayForMonth) := by
  intro s ms ds ys hrec hnan
  rw [parseSearchInput_recognized s ms ds ys hrec]
  exact ⟨validateAndBuild_ne_invalidFormat _ _ _,
    fun hm hd hy => validateAndBuild_nan _ _ _ hnan hm hd hy⟩

/-- Claim C4: when all three components are numeric and in range but
the day exceeds the length of the given month, the constructed date
rolls into the next month, the re-derived month mismatches, and the
parser reports the day-for-month reason; in particular on
"02/31/2025". -/
theorem parseSearchInput_day_overflow_invalidDayForMonth :
    (∀ (s ms ds ys : String) (m d y : Int), recognizedAs s ms ds ys →
      parseInt ms = some m → parseInt ds = some d → parseInt ys = some y →
      1 ≤ m → m ≤ 12 → 1 ≤ d → d ≤ 31 → 1900 ≤ y → y ≤ 9999 →
      daysInMonth y m < d →
      parseSearchInput s = ParseResult.invalidDayForMonth) ∧
    parseSearchInput "02/31/2025" = ParseResult.invalidDayForMonth := by
  refine ⟨?_, by decide⟩
  intro s ms ds ys m d y hrec hm hd hy hm1 hm2 hd1 hd2 hy1 hy2 hover
  rw [parseSearchInput_recognized s ms ds ys hrec, hm, hd, hy]
  have cm : (ltNaN (some m) 1 || gtNaN (some m) 12) = false := by
    simp only [ltNaN, gtNaN, Bool.or_eq_false_iff, decide_eq_false_iff_not]
    omega
  have cd : (ltNaN (some d) 1 || gtNaN (some d) 31) = false := by
    simp only [ltNaN, gtNaN, Bool.or_eq_false_iff, decide_eq_false_iff_not]
    omega
  have cy : (ltNaN (some y) 1900 || gtNaN (some y) 9999) = false := by
    simp only [ltNaN, gtNaN, Bool.or_eq_false_iff, decide_eq_false_iff_not]
    omega
  have hmm : jsDateMonth y (m - 1) d ≠ m - 1 := by
    unfold jsDateMonth
    rw [show m - 1 + 1 = m by omega, if_neg (by omega)]
    omega
  simp [validateAndBuild, cm, cd, cy, hmm]

/-- Claim C5: the range checks run in month, day, year order, and the
first violated check determines the reported reason; in particular
"13/01/2025" reports the invalid-month reason. -/
theorem parseSearchInput_range_check_order :
    (∀ (s ms ds ys : String) (m : Int), recognizedAs s ms ds ys →
      parseInt ms = some m → (m < 1 ∨ 12 < m) →
      parseSearchInput s = ParseResult.invalidMonth) ∧
    (∀ (s ms ds ys : String) (m d : Int), recognizedAs s ms ds ys →
      parseInt ms = some m → 1 ≤ m → m ≤ 12 →
      parseInt ds = some d → (d < 1 ∨ 31 < d) →
      parseSearchInput s = ParseResult.invalidDay) ∧
    (∀ (s ms ds ys : String) (m d y : Int), recognizedAs s ms ds ys →
      parseInt ms = some m → 1 ≤ m → m ≤ 12 →
      parseInt ds = some d → 1 ≤ d → d ≤ 31 →
      parseInt ys = some y → (y < 1900 ∨ 9999 < y) →
      parseSearchInput s = ParseResult.invalidYear) ∧
    parseSearchInput "13/01/2025" = ParseResult.invalidMonth := by
  refine ⟨?_, ?_, ?_, by decide⟩
  · intro s ms ds ys m hrec hm hr
    rw [parseSearchInput_recognized s ms ds ys hrec, hm]
    have cm : (ltNaN (some m) 1 || gtNaN (some m) 12) = true := by
      simp only [ltNaN, gtNaN, Bool.or_eq_true, decide_eq_true_eq]
      omega
    simp [validateAndBuild, cm]
  · intro s ms ds ys m d hrec hm hm1 hm2 hd hr
    rw [parseSearchInput_recognized s ms ds ys hrec, hm, hd]
    have cm : (ltNaN (some m) 1 || gtNaN (some m) 12) = false := by
      simp only [ltNaN, gtNaN, Bool.or_eq_false_iff, decide_eq_false_iff_not]
      omega
    have cd : (ltNaN (some d) 1 || gtNaN (some d) 31) = true := by
      simp only [ltNaN, gtNaN, Bool.or_eq_true, decide_eq_true_eq]
      omega
    simp [validateAndBuild, cm, cd]
  · intro s ms ds ys m d y hrec hm hm1 hm2 hd hd1 hd2 hy hr
    rw [parseSearchInput_recognized s ms ds ys hrec, hm, hd, hy]
    have cm : (ltNaN (some m) 1 || gtNaN (some m) 12) = false := by
      simp only [ltNaN, gtNaN, Bool.or_eq_false_iff, decide_eq_false_iff_not]
      omega
    have cd : (ltNaN (some d) 1 || gtNaN (some d) 31) = false := by
      simp only [ltNaN, gtNaN, Bool.or_eq_false_iff, decide_eq_false_iff_not]
      omega
    have cy : (ltNaN (some y) 1900 || gtNaN (some y) 9999) = true := by
      simp only [ltNaN, gtNaN, Bool.or_eq_true, decide_eq_true_eq]
      omega
    simp [validateAndBuild, cm, cd, cy]

/-- Claim C7: parsing is format independent: two recognized-shape
inputs with the same month, day and year component strings parse to
the same result, whichever of the two shapes each uses; in particular
the two renderings of June 15 2025 agree. -/
theorem parseSearchInput_format_independent :
    (∀ s₁ s₂ ms ds ys : String, recognizedAs s₁ ms ds ys →
      recognizedAs s₂ ms ds ys → parseSearchInput s₁ = parseSearchInput s₂) ∧
    parseSearchInput "06/15/2025" = parseSearchInput "2025-06-15" ∧
    parseSearchInput "06/15/2025" = ParseResult.ok 2025 6 15 := by
  refine ⟨?_, by decide, by decide⟩
  intro s₁ s₂ ms ds ys h1 h2
  rw [parseSearchInput_recognized s₁ ms ds ys h1,
    parseSearchInput_recognized s₂ ms ds ys h2]

/-- Claim C10: the parser is lenient beyond the documented literal
shapes: only the first three separator-delimited components are
consulted, and a component is accepted whenever its leading
characters, after optional whitespace, form an integer; so
"06/15/2025/extra", "6/15x/2025" and " 6 /15/2025" all parse as
June 15 2025. -/
theorem parseSearchInput_lenient_components :
    (∀ (s a b c : String) (rest : List String), jsIncludes s '/' = true →
      jsSplit s '/' = a :: b :: c :: rest →
      parseSearchInput s =
        validateAndBuild (parseInt a) (parseInt b) (parseInt c)) ∧
    parseSearchInput "06/15/2025/extra" = ParseResult.ok 2025 6 15 ∧
    parseSearchInput "6/15x/2025" = ParseResult.ok 2025 6 15 ∧
    parseSearchInput " 6 /15/2025" = ParseResult.ok 2025 6 15 := by
  refine ⟨?_, by decide, by decide, by decide⟩
  intro s a b c rest h1 h2
  simp [parseSearchInput, h1, h2, List.getD]

/-! ## Conflict-detector lemmas -/

/-- The nested loops as a fold of inner-loop iterations over the
visited index pairs. -/
def runPairs (rs : List AnnotatedEvent) (P : List (Nat × Nat)) : List AnnotatedEvent :=
  P.foldl (fun s p => markOverlap s p.1 p.2) rs

/-- The guard of the inner loop at indices i and j, read from the
current record list. -/
def hitB (rs : List AnnotatedEvent) (i j : Nat) : Bool :=
  match rs[i]?, rs[j]? with
  | some a, some b => decide (0 < overlap a.toEvent b.toEvent)
  | _, _ => false

theorem detectConflicts_eq_runPairs (evs : List Event) :
    detectConflicts evs =
      runPairs (evs.map (fun e => { toEvent := e, conflict := false }))
        (pairList evs.length) := by
  simp [detectConflicts, runPairs, List.length_map]

theorem markConflict_map_toEvent (rs : List AnnotatedEvent) (i : Nat) :
    (markConflict rs i).map (·.toEvent) = rs.map (·.toEvent) := by
  induction rs generalizing i with
  | nil => rfl
  | cons r rs ih => cases i <;> simp [markConflict, ih]

theorem markConflict_get (rs : List AnnotatedEvent) (i k : Nat) :
    (markConflict rs i)[k]? =
      if i = k then (rs[k]?).map (fun r => { r with conflict := true })
      else rs[k]? := by
  induction rs generalizing i k with
  | nil => simp [markConflict]
  | cons r rs ih =>
      cases i with
      | zero =>
          cases k with
          | zero => simp [markConflict]
          | succ k => simp [markConflict]
      | succ i =>
          cases k with
          | zero => simp [markConflict]
          | succ k => simpa [markConflict] using ih i k

theorem markOverlap_map_toEvent (rs : List AnnotatedEvent) (i j : Nat) :
    (markOverlap rs i j).map (·.toEvent) = rs.map (·.toEvent) := by
  unfold markOverlap
  split
  · split_ifs
    · rw [markConflict_map_toEvent, markConflict_map_toEvent]
    · rfl
  · rfl

theorem hitB_congr (rs₁ rs₂ : List AnnotatedEvent)
    (h : rs₁.map (·.toEvent) = rs₂.map (·.toEvent)) (i j : Nat) :
    hitB rs₁ i j = hitB rs₂ i j := by
  have hi : (rs₁[i]?).map (·.toEvent) = (rs₂[i]?).map (·.toEvent) := by
    rw [← List.getElem?_map, ← List.getElem?_map, h]
  have hj : (rs₁[j]?).map (·.toEvent) = (rs₂[j]?).map (·.toEvent) := by
    rw [← List.getElem?_map, ← List.getElem?_map, h]
  unfold hitB
  rcases h1 : rs₁[i]? with _ | a₁ <;> rcases h2 : rs₂[i]? with _ | a₂ <;>
    rcases h3 : rs₁[j]? with _ | b₁ <;> rcases h4 : rs₂[j]? with _ | b₂ <;>
      simp_all

theorem markOverlap_get (rs : List AnnotatedEvent) (i j k : Nat) :
    (markOverlap rs i j)[k]? =
      if hitB rs i j = true ∧ (i = k ∨ j = k) then
        (rs[k]?).map (fun r => { r with conflict := true })
      else rs[k]? := by
  cases hi : rs[i]? with
  | none =>
      have hb : hitB rs i j = false := by simp [hitB, hi]
      simp [markOverlap, hi, hb]
  | some a =>
      cases hj : rs[j]? with
      | none =>
          have hb : hitB rs i j = false := by simp [hitB, hi, hj]
          simp [markOverlap, hi, hj, hb]
      | some b =>
          by_cases hov : 0 < overlap a.toEvent b.toEvent
          · have hb : hitB rs i j = true := by simp [hitB, hi, hj, hov]
            have hmain :
                (markOverlap rs i j)[k]? =
                  (markConflict (markConflict rs i) j)[k]? := by
              simp [markOverlap, hi, hj, hov]
            rw [hmain, markConflict_get, markConflict_get]
            have hcond : (hitB rs i j = true ∧ (i = k ∨ j = k)) ↔
                (i = k ∨ j = k) := by simp [hb]
            rw [if_congr hcond rfl rfl]
            by_cases hik : i = k <;> by_cases hjk : j = k
            · rw [if_pos hjk, if_pos hik, if_pos (Or.inl hik)]
              cases rs[k]? <;> rfl
            · rw [if_neg hjk, if_pos hik, if_pos (Or.inl hik)]
            · rw [if_pos hjk, if_neg hik, if_pos (Or.inr hjk)]
            · rw [if_neg hjk, if_neg hik,
                if_neg (fun h => h.elim hik hjk)]
          · have hb : hitB rs i j = false := by simp [hitB, hi, hj, hov]
            simp [markOverlap, hi, hj, hov, hb]

theorem runPairs_map_toEvent (P : List (Nat × Nat)) (rs : List AnnotatedEvent) :
    (runPairs rs P).map (·.toEvent) = rs.map (·.toEvent) := by
  induction P generalizing rs with
  | nil => rfl
  | cons p P ih =>
      show (runPairs (markOverlap rs p.1 p.2) P).map (·.toEvent) = _
      rw [ih, markOverlap_map_toEvent]

theorem runPairs_get (P : List (Nat × Nat)) (rs : List AnnotatedEvent) (k : Nat) :
    (runPairs rs P)[k]? =
      if ∃ p ∈ P, hitB rs p.1 p.2 = true ∧ (p.1 = k ∨ p.2 = k) then
        (rs[k]?).map (fun r => { r with conflict := true })
      else rs[k]? := by
  induction P generalizing rs with
  | nil => simp [runPairs]
  | cons p P ih =>
      obtain ⟨i, j⟩ := p
      show (runPairs (markOverlap rs i j) P)[k]? = _
      rw [ih]
      have hcongr : ∀ q : Nat × Nat,
          hitB (markOverlap rs i j) q.1 q.2 = hitB rs q.1 q.2 :=
        fun q => hitB_congr _ _ (markOverlap_map_toEvent rs i j) q.1 q.2
      simp only [hcongr, markOverlap_get]
      by_cases hhead : hitB rs i j = true ∧ (i = k ∨ j = k)
      · have hex : ∃ q ∈ (i, j) :: P,
            hitB rs q.1 q.2 = true ∧ (q.1 = k ∨ q.2 = k) :=
          ⟨(i, j), List.mem_cons_self (i, j) P, hhead⟩
        rw [if_pos hhead, if_pos hex]
        by_cases hrest : ∃ q ∈ P, hitB rs q.1 q.2 = true ∧ (q.1 = k ∨ q.2 = k)
        · rw [if_pos hrest]
          cases rs[k]? <;> rfl
        · rw [if_neg hrest]
      · have hiff : (∃ q ∈ (i, j) :: P,
            hitB rs q.1 q.2 = true ∧ (q.1 = k ∨ q.2 = k)) ↔
            (∃ q ∈ P, hitB rs q.1 q.2 = true ∧ (q.1 = k ∨ q.2 = k)) := by
          simp only [List.mem_cons]
          constructor
          · rintro ⟨q, rfl | hq, hcond⟩
            · exact absurd hcond hhead
            · exact ⟨q, hq, hcond⟩
          · rintro ⟨q, hq, hcond⟩
            exact ⟨q, Or.inr hq, hcond⟩
        rw [if_neg hhead, if_congr hiff rfl rfl]

theorem mem_pairList (n i j : Nat) :
    (i, j) ∈ pairList n ↔ i < j ∧ j < n := by
  unfold pairList
  simp only [List.mem_flatMap, List.mem_map, List.mem_range, List.mem_range'_1,
    Prod.mk.injEq]
  constructor
  · rintro ⟨a, ha, b, ⟨hb1, hb2⟩, rfl, rfl⟩
    omega
  · rintro ⟨h1, h2⟩
    exact ⟨i, by omega, j, ⟨by omega, by omega⟩, rfl, rfl⟩

/-- The annotated output projects back onto the input events. -/
theorem detectConflicts_map_toEvent (evs : List Event) :
    (detectConflicts evs).map (·.toEvent) = evs := by
  rw [detectConflicts_eq_runPairs, runPairs_map_toEvent, List.map_map]
  exact List.map_id evs

theorem detectConflicts_get_toEvent (evs : List Event) (k : Nat) :
    ((detectConflicts evs)[k]?).map (·.toEvent) = evs[k]? := by
  rw [← List.getElem?_map, detectConflicts_map_toEvent]

theorem hitB_init (evs : List Event) (i j : Nat) :
    hitB (evs.map (fun e => { toEvent := e, conflict := false })) i j = true ↔
      ∃ a b, evs[i]? = some a ∧ evs[j]? = some b ∧ 0 < overlap a b := by
  unfold hitB
  rw [List.getElem?_map, List.getElem?_map]
  cases evs[i]? <;> cases evs[j]? <;> simp

theorem overlap_comm (a b : Event) : overlap a b = overlap b a := by
  simp only [overlap]
  rw [min_comm (toMinutes a.startTime + a.durationMinutes)
      (toMinutes b.startTime + b.durationMinutes),
    max_comm (toMinutes a.startTime) (toMinutes b.startTime)]

/-- Characterization of the final flag of the record at index k: it
is set exactly when some other index holds a positively overlapping
event. -/
theorem detectConflicts_conflict_iff (evs : List Event) (k : Nat)
    (r : AnnotatedEvent) (hr : (detectConflicts evs)[k]? = some r) :
    r.conflict = true ↔
      ∃ l b, evs[l]? = some b ∧ l ≠ k ∧ 0 < overlap r.toEvent b := by
  have htoev : some r.toEvent = evs[k]? := by
    rw [← detectConflicts_get_toEvent evs k, hr]; rfl
  rw [detectConflicts_eq_runPairs, runPairs_get, List.getElem?_map] at hr
  cases ha : evs[k]? with
  | none => rw [ha] at hr; simp at hr
  | some a =>
      have hra : r.toEvent = a := Option.some.inj (ha ▸ htoev)
      rw [ha] at hr
      have hk : k < evs.length := by
        rcases List.getElem?_eq_some.mp ha with ⟨hk, _⟩; exact hk
      by_cases hC : ∃ p ∈ pairList evs.length,
          hitB (evs.map (fun e => { toEvent := e, conflict := false }))
            p.1 p.2 = true ∧ (p.1 = k ∨ p.2 = k)
      · rw [if_pos hC] at hr
        have hrval : r = { toEvent := a, conflict := true } := by
          have h' : some ({ toEvent := a, conflict := true } : AnnotatedEvent) =
              some r := hr
          exact (Option.some.inj h').symm
        subst hrval
        refine iff_of_true rfl ?_
        obtain ⟨⟨i, j⟩, hp, hhit, hk'⟩ := hC
        obtain ⟨hij, hjn⟩ := (mem_pairList evs.length i j).mp hp
        obtain ⟨a', b', ha', hb', hov⟩ := (hitB_init evs i j).mp hhit
        rcases hk' with hik | hjk
        · subst hik
          have : a' = a := by rw [ha] at ha'; exact (Option.some.inj ha').symm
          subst this
          exact ⟨j, b', hb', by omega, hov⟩
        · subst hjk
          have : b' = a := by rw [ha] at hb'; exact (Option.some.inj hb').symm
          subst this
          exact ⟨i, a', ha', by omega, by rw [overlap_comm]; exact hov⟩
      · rw [if_neg hC] at hr
        have hrval : r = { toEvent := a, conflict := false } := by
          have h' : some ({ toEvent := a, conflict := false } : AnnotatedEvent) =
              some r := hr
          exact (Option.some.inj h').symm
        subst hrval
        refine iff_of_false (by simp) ?_
        rintro ⟨l, b, hb, hlk, hov⟩
        have hl : l < evs.length := by
          rcases List.getElem?_eq_some.mp hb with ⟨hl, _⟩; exact hl
        apply hC
        rcases Nat.lt_or_ge l k with hlt | hge
        · refine ⟨(l, k), (mem_pairList evs.length l k).mpr ⟨hlt, hk⟩, ?_, Or.inr rfl⟩
          exact (hitB_init evs l k).mpr ⟨b, a, hb, ha, by rw [overlap_comm]; simpa using hov⟩
        · have hkl : k < l := by omega
          refine ⟨(k, l), (mem_pairList evs.length k l).mpr ⟨hkl, hl⟩, ?_, Or.inl rfl⟩
          exact (hitB_init evs k l).mpr ⟨a, b, ha, hb, by simpa using hov⟩

theorem overlap_pos_of_same (a b : Event)
    (hs : toMinutes a.startTime = toMinutes b.startTime)
    (hd : a.durationMinutes = b.durationMinutes)
    (hp : 0 < a.durationMinutes) : 0 < overlap a b := by
  simp only [overlap, hs, hd, min_self, max_self]
  omega

theorem overlap_eq_zero_back_to_back (a b : Event)
    (ha : 0 ≤ a.durationMinutes) (hb : 0 ≤ b.durationMinutes)
    (h : toMinutes a.startTime + a.durationMinutes = toMinutes b.startTime) :
    overlap a b = 0 := by
  simp only [overlap]
  rw [h]
  have h1 : min (toMinutes b.startTime)
      (toMinutes b.startTime + b.durationMinutes) = toMinutes b.startTime :=
    min_eq_left (by omega)
  have h2 : max (toMinutes a.startTime) (toMinutes b.startTime) =
      toMinutes b.startTime := max_eq_right (by omega)
  rw [h1, h2]
  omega

theorem overlap_eq_zero_of_zero_duration (a b : Event)
    (h : a.durationMinutes = 0) : overlap a b = 0 := by
  simp only [overlap, h, add_zero]
  have h1 : min (toMinutes a.startTime)
      (toMinutes b.startTime + b.durationMinutes) ≤ toMinutes a.startTime :=
    min_le_left _ _
  have h2 : toMinutes a.startTime ≤
      max (toMinutes a.startTime) (toMinutes b.startTime) := le_max_left _ _
  omega

/-! ## Claim theorems about the conflict detector -/

/-- Claim C1: detectConflicts marks an event exactly when some other
event of the same input list overlaps it with positive measure;
consequently a single event is never marked, two events with
identical positive-length ranges are both marked, back-to-back events
are not marked, and a zero-duration event is never marked. -/
theorem detectConflicts_marks_iff_positive_overlap :
    (∀ (evs : List Event) (k : Nat) (a : Event) (r : AnnotatedEvent),
      evs[k]? = some a → (detectConflicts evs)[k]? = some r →
      (r.conflict = true ↔
        ∃ l b, evs[l]? = some b ∧ l ≠ k ∧ 0 < overlap a b)) ∧
    (∀ e : Event,
      detectConflicts [e] = [{ toEvent := e, conflict := false }]) ∧
    (∀ e₁ e₂ : Event, toMinutes e₁.startTime = toMinutes e₂.startTime →
      e₁.durationMinutes = e₂.durationMinutes → 0 < e₁.durationMinutes →
      detectConflicts [e₁, e₂] =
        [{ toEvent := e₁, conflict := true },
         { toEvent := e₂, conflict := true }]) ∧
    (∀ e₁ e₂ : Event, 0 ≤ e₁.durationMinutes → 0 ≤ e₂.durationMinutes →
      toMinutes e₁.startTime + e₁.durationMinutes = toMinutes e₂.startTime →
      detectConflicts [e₁, e₂] =
        [{ toEvent := e₁, conflict := false },
         { toEvent := e₂, conflict := false }]) ∧
    (∀ (evs : List Event) (k : Nat) (a : Event) (r : AnnotatedEvent),
      evs[k]? = some a → a.durationMinutes = 0 →
      (detectConflicts evs)[k]? = some r → r.conflict = false) := by
  refine ⟨?_, ?_, ?_, ?_, ?_⟩
  · intro evs k a r ha hr
    have hra : r.toEvent = a := by
      have h := detectConflicts_get_toEvent evs k
      rw [hr, ha] at h
      exact Option.some.inj h
    rw [← hra]
    exact detectConflicts_conflict_iff evs k r hr
  · intro e
    rfl
  · intro e₁ e₂ hs hd hp
    have hov : 0 < overlap e₁ e₂ := overlap_pos_of_same e₁ e₂ hs hd hp
    have hstep : detectConflicts [e₁, e₂] =
        if 0 < overlap e₁ e₂ then
          markConflict (markConflict
            [{ toEvent := e₁, conflict := false },
             { toEvent := e₂, conflict := false }] 0) 1
        else
          [{ toEvent := e₁, conflict := false },
           { toEvent := e₂, conflict := false }] := rfl
    rw [hstep, if_pos hov]
    rfl
  · intro e₁ e₂ h₁ h₂ hback
    have hov : overlap e₁ e₂ = 0 := overlap_eq_zero_back_to_back e₁ e₂ h₁ h₂ hback
    have hneg : ¬ 0 < overlap e₁ e₂ := by rw [hov]; omega
    have hstep : detectConflicts [e₁, e₂] =
        if 0 < overlap e₁ e₂ then
          markConflict (markConflict
            [{ toEvent := e₁, conflict := false },
             { toEvent := e₂, conflict := false }] 0) 1
        else
          [{ toEvent := e₁, conflict := false },
           { toEvent := e₂, conflict := false }] := rfl
    rw [hstep, if_neg hneg]
  · intro evs k a r ha hdur hr
    have hra : r.toEvent = a := by
      have h := detectConflicts_get_toEvent evs k
      rw [hr, ha] at h
      exact Option.some.inj h
    cases hc : r.conflict with
    | false => rfl
    | true =>
        exfalso
        obtain ⟨l, b, hb, hlk, hov⟩ :=
          (detectConflicts_conflict_iff evs k r hr).mp hc
        rw [hra, overlap_eq_zero_of_zero_duration a b hdur] at hov
        exact absurd hov (by omega)

/-- Claim C8: conflict marking is symmetric: whenever two distinct
positions hold positively overlapping events, the records at both
positions come out flagged. -/
theorem detectConflicts_symmetric :
    ∀ (evs : List Event) (i j : Nat) (a b : Event) (ra rb : AnnotatedEvent),
      i ≠ j → evs[i]? = some a → evs[j]? = some b → 0 < overlap a b →
      (detectConflicts evs)[i]? = some ra →
      (detectConflicts evs)[j]? = some rb →
      ra.conflict = true ∧ rb.conflict = true := by
  intro evs i j a b ra rb hij ha hb hov hra hrb
  have hraa : ra.toEvent = a := by
    have h := detectConflicts_get_toEvent evs i
    rw [hra, ha] at h
    exact Option.some.inj h
  have hrbb : rb.toEvent = b := by
    have h := detectConflicts_get_toEvent evs j
    rw [hrb, hb] at h
    exact Option.some.inj h
  constructor
  · exact (detectConflicts_conflict_iff evs i ra hra).mpr
      ⟨j, b, hb, hij.symm, by rw [hraa]; exact hov⟩
  · exact (detectConflicts_conflict_iff evs j rb hrb).mpr
      ⟨i, a, ha, hij, by rw [hrbb, overlap_comm]; exact hov⟩

/-- Claim C9: detectConflicts is observably pure: the output has the
same length and order as the input and every output record carries
exactly the corresponding input event's fields, differing only by the
added conflict flag; the input list itself is untouched (the source
spread-copies each record before mutating flags, and the embedding is
a function of the input). -/
theorem detectConflicts_preserves_events :
    ∀ evs : List Event,
      (detectConflicts evs).map (·.toEvent) = evs ∧
      (detectConflicts evs).length = evs.length := by
  intro evs
  refine ⟨detectConflicts_map_toEvent evs, ?_⟩
  have h := congrArg List.length (detectConflicts_map_toEvent evs)
  rwa [List.length_map] at h

/-! ## Event-index lemmas -/

theorem lookup_insertEvent (map : List (String × List Event)) (e : Event)
    (k : String) :
    lookup (insertEvent map e) k =
      if e.date == k then lookup map k ++ [e] else lookup map k := by
  unfold insertEvent
  cases hfind : map.find? (fun p => p.1 == e.date) with
  | some q =>
      have hkeys : (fun p : String × List Event =>
          (if p.1 == e.date then (p.1, p.2 ++ [e]) else p).1 == k) =
          (fun p : String × List Event => p.1 == k) := by
        funext p
        by_cases h : (p.1 == e.date) = true <;> simp [h]
      unfold lookup
      rw [List.find?_map, Function.comp_def]
      rw [show (fun p : String × List Event =>
          (if p.1 == e.date then (p.1, p.2 ++ [e]) else p).1 == k) =
          (fun p : String × List Event => p.1 == k) from hkeys]
      cases hfk : map.find? (fun p => p.1 == k) with
      | some qk =>
          have hq' := List.find?_some hfk
          have hq : qk.1 = k := by simpa using hq'
          by_cases hed : e.date = k
          · have h1 : (qk.1 == e.date) = true := by rw [hq, hed]; simp
            have h2 : (e.date == k) = true := by rw [hed]; simp
            simp [h1, h2, hq, hed]
          · have h1 : (qk.1 == e.date) = false := by
              rw [hq]; exact beq_eq_false_iff_ne.mpr (fun hh => hed hh.symm)
            have h2 : (e.date == k) = false := beq_eq_false_iff_ne.mpr hed
            simp only [h2, Bool.false_eq_true, if_false]
            show (if (qk.1 == e.date) = true then (qk.1, qk.2 ++ [e])
              else qk).2 = qk.2
            simp [h1]
      | none =>
          by_cases hed : e.date = k
          · exfalso
            rw [hed] at hfind
            rw [hfind] at hfk
            exact absurd hfk (by simp)
          · have h2 : (e.date == k) = false := beq_eq_false_iff_ne.mpr hed
            simp [h2]
  | none =>
      unfold lookup
      rw [List.find?_append]
      cases hfk : map.find? (fun p => p.1 == k) with
      | some qk =>
          by_cases hed : e.date = k
          · exfalso
            rw [hed] at hfind
            rw [hfind] at hfk
            exact absurd hfk (by simp)
          · have h2 : (e.date == k) = false := beq_eq_false_iff_ne.mpr hed
            simp [Option.or, h2]
      | none =>
          by_cases hed : e.date = k
          · have h2 : (e.date == k) = true := by rw [hed]; simp
            simp [Option.or, List.find?, h2]
          · have h2 : (e.date == k) = false := beq_eq_false_iff_ne.mpr hed
            simp [Option.or, List.find?, h2]

theorem lookup_foldl_insertEvent (evs : List Event)
    (acc : List (String × List Event)) (k : String) :
    lookup (evs.foldl insertEvent acc) k =
      lookup acc k ++ evs.filter (fun e => e.date == k) := by
  induction evs generalizing acc with
  | nil => simp
  | cons e evs ih =>
      show lookup (evs.foldl insertEvent (insertEvent acc e)) k = _
      rw [ih, lookup_insertEvent, List.filter_cons]
      by_cases h : (e.date == k) = true
      · simp [h]
      · simp [h]

/-! ## Claim theorem about the event index -/

/-- Claim C6: looking up any date key in the built index returns
exactly the input events carrying that key, in their original
relative order, and the empty list, never a failure, for an absent
key; in particular every event is found under its own date key. -/
theorem lookup_buildIndex_filter :
    (∀ (evs : List Event) (k : String),
      lookup (buildIndex evs) k = evs.filter (fun e => e.date == k)) ∧
    (∀ (evs : List Event) (e : Event), e ∈ evs →
      e ∈ lookup (buildIndex evs) e.date) := by
  have hmain : ∀ (evs : List Event) (k : String),
      lookup (buildIndex evs) k = evs.filter (fun e => e.date == k) := by
    intro evs k
    have h := lookup_foldl_insertEvent evs [] k
    simpa [buildIndex, lookup] using h
  refine ⟨hmain, ?_⟩
  intro evs e he
  rw [hmain]
  exact List.mem_filter.mpr ⟨he, by simp⟩

/-! ## Concrete instances

Sample events for the witness instantiations, taken from the spec's
worked example of section 8: two overlapping morning events and one
disjoint later event on the same date. -/

def sampleA : Event :=
  { id := 1, date := "2025-06-15", startTime := "09:00", endTime := "10:00",
    durationMinutes := 60, title := "Standup", color := "red" }

def sampleA2 : Event :=
  { id := 2, date := "2025-06-15", startTime := "09:00", endTime := "10:00",
    durationMinutes := 60, title := "Planning", color := "blue" }

def sampleB : Event :=
  { id := 3, date := "2025-06-15", startTime := "09:30", endTime := "10:00",
    durationMinutes := 30, title := "Review", color := "blue" }

def sampleC : Event :=
  { id := 4, date := "2025-06-15", startTime := "10:30", endTime := "11:00",
    durationMinutes := 30, title := "Lunch", color := "green" }

/-- Witness for C1 at a concrete input: two events with identical
positive-length ranges are both flagged. -/
theorem detectConflicts_marks_iff_positive_overlap_witness :
    detectConflicts [sampleA, sampleA2] =
      [{ toEvent := sampleA, conflict := true },
       { toEvent := sampleA2, conflict := true }] :=
  detectConflicts_marks_iff_positive_overlap.2.2.1 sampleA sampleA2
    (by decide) (by decide) (by decide)

/-- Witness for C2 at a concrete input: a string with no separator at
all fails with the invalid-format reason. -/
theorem parseSearchInput_invalidFormat_only_without_separators_witness :
    parseSearchInput "hello" = ParseResult.invalidFormat :=
  parseSearchInput_invalidFormat_only_without_separators.1 "hello"
    (by decide) (by decide)

/-- Witness for C3 at a concrete input: the slash-shaped input with
non-numeric month token "ab" avoids the invalid-format reason and
reports the day-for-month mismatch. -/
theorem parseSearchInput_nonnumeric_reports_dayForMonth_witness :
    parseSearchInput "ab/15/2025" = ParseResult.invalidDayForMonth ∧
      parseSearchInput "ab/15/2025" ≠ ParseResult.invalidFormat := by
  have h := parseSearchInput_nonnumeric_reports_dayForMonth
    "ab/15/2025" "ab" "15" "2025"
    (Or.inl ⟨by decide, by decide⟩) (Or.inl (by decide))
  refine ⟨h.2 ?_ ?_ ?_, h.1⟩
  · intro v hv
    rw [show parseInt "ab" = none from by decide] at hv
    exact Option.noConfusion hv
  · intro v hv
    rw [show parseInt "15" = some 15 from by decide] at hv
    injection hv with hv
    subst hv
    exact ⟨by decide, by decide⟩
  · intro v hv
    rw [show parseInt "2025" = some 2025 from by decide] at hv
    injection hv with hv
    subst hv
    exact ⟨by decide, by decide⟩

/-- Witness for C4 at the spec's example input "02/31/2025". -/
theorem parseSearchInput_day_overflow_invalidDayForMonth_witness :
    parseSearchInput "02/31/2025" = ParseResult.invalidDayForMonth :=
  parseSearchInput_day_overflow_invalidDayForMonth.1
    "02/31/2025" "02" "31" "2025" 2 31 2025
    (Or.inl ⟨by decide, by decide⟩) (by decide) (by decide) (by decide)
    (by decide) (by decide) (by decide) (by decide) (by decide) (by decide)
    (by decide)

/-- Witness for C5 at the spec's example input "13/01/2025". -/
theorem parseSearchInput_range_check_order_witness :
    parseSearchInput "13/01/2025" = ParseResult.invalidMonth :=
  parseSearchInput_range_check_order.1 "13/01/2025" "13" "01" "2025" 13
    (Or.inl ⟨by decide, by decide⟩) (by decide) (Or.inr (by decide))

/-- Witness for C6 at a concrete input: an event is found under its
own date key. -/
theorem lookup_buildIndex_filter_witness :
    sampleA ∈ lookup (buildIndex [sampleA, sampleB, sampleC]) sampleA.date :=
  lookup_buildIndex_filter.2 [sampleA, sampleB, sampleC] sampleA (by decide)

/-- Witness for C7 at the spec's example pair of renderings of
June 15 2025. -/
theorem parseSearchInput_format_independent_witness :
    parseSearchInput "06/15/2025" = parseSearchInput "2025-06-15" :=
  parseSearchInput_format_independent.1 "06/15/2025" "2025-06-15"
    "06" "15" "2025"
    (Or.inl ⟨by decide, by decide⟩) (Or.inr ⟨by decide, by decide, by decide⟩)

/-- Witness for C8 at a concrete input: both overlapping events of
the spec's worked example come out flagged. -/
theorem detectConflicts_symmetric_witness :
    ({ toEvent := sampleA, conflict := true } : AnnotatedEvent).conflict = true ∧
    ({ toEvent := sampleB, conflict := true } : AnnotatedEvent).conflict = true :=
  detectConflicts_symmetric [sampleA, sampleB] 0 1 sampleA sampleB
    { toEvent := sampleA, conflict := true }
    { toEvent := sampleB, conflict := true }
    (by decide) (by decide) (by decide) (by decide) (by decide) (by decide)

/-- Witness for C10 at a concrete input: the fourth slash component
is ignored. -/
theorem parseSearchInput_lenient_components_witness :
    parseSearchInput "06/15/2025/extra" =
      validateAndBuild (parseInt "06") (parseInt "15") (parseInt "2025") :=
  parseSearchInput_lenient_components.1 "06/15/2025/extra"
    "06" "15" "2025" ["extra"] (by decide) (by decide)

end CalendarApp
